import Mathlib

/-!  Verification of the screen-state extraction and turn-control logic of
`lmj/nethack.py`.  The embedding covers the derived properties of inventory
items, the attribute/status row parsers (with the exact greedy/backtracking
behaviour of the regular expressions used by the source), the inventory
listing extractor, the `neighborhood` window extraction, and the
`_observe`/`_act` controller state machine.  Python dict values that may be
either strings or integers are modelled by the `PyVal` type; Python regex
`Match`-or-`None` results used as truth values are modelled as `Bool`
or `Option`.  -/

namespace Nethack

/-- The space character (Python `chr(32)`). -/
def spaceChar : Char := Char.ofNat 32

/-- The escape character `\x1b`. -/
def escChar : Char := Char.ofNat 27

/-- The newline character (excluded by the regex metacharacter `.`). -/
def nlChar : Char := Char.ofNat 10

/-- Python whitespace, as removed by `str.strip()` and matched by `\s`. -/
def isPySpace (c : Char) : Bool :=
  c.toNat = 32 || c.toNat = 9 || c.toNat = 10 || c.toNat = 13 ||
    c.toNat = 11 || c.toNat = 12

/-- The regex class `\S`. -/
def isNonSpace (c : Char) : Bool := !isPySpace c

/-- The regex word-character class `\w` (ASCII). -/
def isWordChar (c : Char) : Bool := c.isAlpha || c.isDigit || c == '_'

/-- The regex class `[/\d]` used for the strength attribute. -/
def slashDigit (c : Char) : Bool := c == '/' || c.isDigit

/-- `str.strip()`: drop leading and trailing whitespace. -/
def pyStrip (l : List Char) : List Char :=
  ((l.dropWhile isPySpace).reverse.dropWhile isPySpace).reverse

/-- `int(...)` applied to a decimal digit group. -/
def digitsToNat (l : List Char) : Nat :=
  l.foldl (fun acc c => 10 * acc + (c.toNat - 48)) 0

/-- Python `str.isdigit()` (ASCII inputs). -/
def pyIsDigit (l : List Char) : Bool := !l.isEmpty && l.all Char.isDigit

/-- Helper for `findSub`: index of the first occurrence of `pat`, counting
from `i`. -/
def findSubAux (pat : List Char) : Nat → List Char → Option Nat
  | i, [] => if pat.isEmpty then some i else none
  | i, c :: t => if pat.isPrefixOf (c :: t) then some i else findSubAux pat (i + 1) t

/-- Python `bytes.find` / `str.find`: first index of `pat` in `l`
(`none` standing for the sentinel -1). -/
def findSub (l pat : List Char) : Option Nat := findSubAux pat 0 l

/-- Python `sub in s` substring containment. -/
def containsSub (l pat : List Char) : Bool := (findSub l pat).isSome

/-- The part of `l` before the first occurrence of `pat`
(`l.split(pat)[0]`). -/
def takeBeforeSub (l pat : List Char) : List Char :=
  match findSub l pat with
  | some i => l.take i
  | none => l

/-- Greedy one-or-more repetition of a character class (regex `C+`): the
longest run is tried first, backtracking into shorter nonempty prefixes of
the run.  `k` receives the captured group and the remaining input. -/
def plusAux {α : Type} (l : List Char) (k : List Char → List Char → Option α) :
    Nat → Option α
  | 0 => none
  | n + 1 =>
    match k (l.take (n + 1)) (l.drop (n + 1)) with
    | some r => some r
    | none => plusAux l k n

/-- Match `cls+` greedily at the start of `l`, continuing with `k`. -/
def plusP {α : Type} (cls : Char → Bool) (l : List Char)
    (k : List Char → List Char → Option α) : Option α :=
  plusAux l k (l.takeWhile cls).length

/-- Greedy `\s*`: the longest space run is skipped first, backtracking into
shorter skips. -/
def starAux {α : Type} (l : List Char) (k : List Char → Option α) :
    Nat → Option α
  | 0 => k l
  | n + 1 =>
    match k (l.drop (n + 1)) with
    | some r => some r
    | none => starAux l k n

/-- Match `\s*` greedily at the start of `l`, continuing with `k`. -/
def starP {α : Type} (l : List Char) (k : List Char → Option α) : Option α :=
  starAux l k (l.takeWhile isPySpace).length

/-- Match a literal at the start of `l`, continuing with `k`. -/
def litP {α : Type} (pat : String) (l : List Char) (k : List Char → Option α) :
    Option α :=
  if pat.data.isPrefixOf l then k (l.drop pat.data.length) else none

/-- Optional alternation group `(A|B|...)?`: alternatives are tried in
order, then the empty match; `k` receives the captured group (or `none`). -/
def altP {α : Type} : List String → List Char →
    (Option String → List Char → Option α) → Option α
  | [], l, k => k none l
  | a :: rest, l, k =>
    if a.data.isPrefixOf l then
      match k (some a) (l.drop a.data.length) with
      | some r => some r
      | none => altP rest l k
    else altP rest l k

/-- `re.search`: try a match at every start position, leftmost first. -/
def searchAux {α : Type} (p : List Char → Option α) : List Char → Option α
  | [] => p []
  | c :: t =>
    match p (c :: t) with
    | some r => some r
    | none => searchAux p t

/-- Search for a Boolean position predicate anywhere in the input. -/
def searchPos (p : List Char → Bool) : List Char → Bool
  | [] => p []
  | c :: t => p (c :: t) || searchPos p t

/-- One candidate position of `re.search(r'\bWORD\b', ...)`: the word must
occur here with a non-word character (or an edge) on both sides.  `prev` is
the character just before this position. -/
def boundedAt (word : List Char) (prev : Option Char) (l : List Char) : Bool :=
  word.isPrefixOf l &&
    (match prev with | none => true | some c => !isWordChar c) &&
    (match l.drop word.length with | [] => true | c :: _ => !isWordChar c)

/-- Scan for a word-bounded occurrence, tracking the previous character. -/
def searchBoundedAux (word : List Char) (prev : Option Char) : List Char → Bool
  | [] => boundedAt word prev []
  | c :: t => boundedAt word prev (c :: t) || searchBoundedAux word (some c) t

/-- `re.search(r'\bWORD\b', l)` as a Boolean. -/
def searchBounded (word : List Char) (l : List Char) : Bool :=
  searchBoundedAux word none l

/-- `InventoryItem`: the stored raw description text. -/
structure InventoryItem where
  raw : List Char
  deriving DecidableEq

/-- `InventoryItem.__init__`: `self.raw = raw.strip()`. -/
def mkItem (s : String) : InventoryItem := ⟨pyStrip s.data⟩

namespace InventoryItem

/-- `re.search(r'\bcursed\b', self.raw)`, as a Boolean. -/
def is_cursed (it : InventoryItem) : Bool := searchBounded "cursed".data it.raw

/-- `re.search(r'\buncursed\b', self.raw)`, as a Boolean. -/
def is_uncursed (it : InventoryItem) : Bool := searchBounded "uncursed".data it.raw

/-- `re.match(r'^(\d+)', self.raw)`: leading count, defaulting to 1. -/
def duplicates (it : InventoryItem) : Nat :=
  let run := it.raw.takeWhile Char.isDigit
  if run.isEmpty then 1 else digitsToNat run

/-- `re.match(r' ([-+]\d+) ', self.raw)`: anchored at position 0, so the
very first character of the stored text must be a space. -/
def enchantment (it : InventoryItem) : Option Int :=
  match it.raw with
  | [] => none
  | c :: rest =>
    if c = spaceChar then
      match rest with
      | [] => none
      | s :: rest2 =>
        if s = '+' || s = '-' then
          let run := rest2.takeWhile Char.isDigit
          if run.isEmpty then none
          else
            match rest2.drop run.length with
            | [] => none
            | c2 :: _ =>
              if c2 = spaceChar then
                some (if s = '-' then -(digitsToNat run : Int) else (digitsToNat run : Int))
              else none
        else none
    else none

/-- `re.match(r' named ([^\(]+)', self.raw)`: anchored at position 0. -/
def named (it : InventoryItem) : Option String :=
  if " named ".data.isPrefixOf it.raw then
    let rest := it.raw.drop 7
    let run := rest.takeWhile (fun c => c != '(')
    if run.isEmpty then none else some (String.mk run)
  else none

/-- One position of `re.search(r'\(weapon in hands?\)', ...)`: the optional
`s?` makes exactly these two literals possible. -/
def wieldAt (l : List Char) : Bool :=
  "(weapon in hands)".data.isPrefixOf l || "(weapon in hand)".data.isPrefixOf l

/-- `WeaponsItem.is_wielded`, as a Boolean. -/
def is_wielded (it : InventoryItem) : Bool := searchPos wieldAt it.raw

end InventoryItem

lemma dropWhile_head_not (p : Char → Bool) :
    ∀ (l : List Char) (c : Char) (t : List Char), l.dropWhile p = c :: t → p c = false := by
  intro l
  induction l with
  | nil => intro c t h; simp [List.dropWhile] at h
  | cons a l ih =>
    intro c t h
    by_cases ha : p a
    · rw [List.dropWhile_cons_of_pos ha] at h
      exact ih c t h
    · rw [List.dropWhile_cons_of_neg ha] at h
      cases h
      simpa using ha

lemma dropWhile_eq_append (p : Char → Bool) (l : List Char) :
    ∃ t, t ++ l.dropWhile p = l := by
  induction l with
  | nil => exact ⟨[], rfl⟩
  | cons a l ih =>
    by_cases ha : p a
    · obtain ⟨t, ht⟩ := ih
      exact ⟨a :: t, by simp [List.dropWhile_cons_of_pos ha, ht]⟩
    · exact ⟨[], by simp [List.dropWhile_cons_of_neg ha]⟩

lemma pyStrip_head_not (l : List Char) (c : Char) (t : List Char)
    (h : pyStrip l = c :: t) : isPySpace c = false := by
  obtain ⟨u, hu⟩ := dropWhile_eq_append isPySpace (l.dropWhile isPySpace).reverse
  have h3 : (l.dropWhile isPySpace).reverse.dropWhile isPySpace = (c :: t).reverse := by
    have h2 : ((l.dropWhile isPySpace).reverse.dropWhile isPySpace).reverse = c :: t := h
    rw [← h2, List.reverse_reverse]
  have hm : l.dropWhile isPySpace = c :: (t ++ u.reverse) := by
    calc l.dropWhile isPySpace
        = (l.dropWhile isPySpace).reverse.reverse := (List.reverse_reverse _).symm
      _ = (u ++ (l.dropWhile isPySpace).reverse.dropWhile isPySpace).reverse := by rw [hu]
      _ = (u ++ (c :: t).reverse).reverse := by rw [h3]
      _ = c :: (t ++ u.reverse) := by simp
  exact dropWhile_head_not isPySpace l c _ hm

/-- Claim C10: for every `InventoryItem`, whatever its raw description text,
the derived `enchantment` and `named` properties are absent: the stored text
is stripped at construction, while both extraction patterns are matched only
at the start of the string and require a leading space character there. -/
theorem item_enchantment_named_none (s : String) :
    (mkItem s).enchantment = none ∧ (mkItem s).named = none := by
  have hspace : isPySpace spaceChar = true := by decide
  constructor
  · show (InventoryItem.enchantment ⟨pyStrip s.data⟩) = none
    unfold InventoryItem.enchantment
    cases hs : pyStrip s.data with
    | nil => simp
    | cons c rest =>
      have hc := pyStrip_head_not _ _ _ hs
      have hcs : ¬(c = spaceChar) := by
        intro he
        rw [he, hspace] at hc
        cases hc
      simp [hcs]
  · show (InventoryItem.named ⟨pyStrip s.data⟩) = none
    unfold InventoryItem.named
    cases hs : pyStrip s.data with
    | nil => simp [List.isPrefixOf]
    | cons c rest =>
      have hc := pyStrip_head_not _ _ _ hs
      have hcs : ¬(spaceChar = c) := by
        intro he
        rw [← he, hspace] at hc
        cases hc
      have hd : " named ".data = spaceChar :: "named ".data := by decide
      have hpre : (" named ".data.isPrefixOf (c :: rest)) = false := by
        rw [hd]
        simp [List.isPrefixOf_cons₂, hcs]
      simp [hpre]

/-- Witness for C10 on a text whose unstripped form would have matched the
enchantment pattern. -/
theorem item_enchantment_named_none_witness :
    (mkItem " +1 long sword named Sting ").enchantment = none ∧
    (mkItem " +1 long sword named Sting ").named = none :=
  item_enchantment_named_none " +1 long sword named Sting "

/-- Claim C7 (code evaluation): on the raw text
`"2 uncursed +1 long swords (weapon in hands)"` the derived properties are
`duplicates = 2`, `is_uncursed`, not `is_cursed`, `is_wielded`, but
`enchantment` is `none` (not 1): the anchored pattern can never fire on the
stripped text. -/
theorem weapons_item_example_eval :
    (mkItem "2 uncursed +1 long swords (weapon in hands)").duplicates = 2 ∧
    (mkItem "2 uncursed +1 long swords (weapon in hands)").is_uncursed = true ∧
    (mkItem "2 uncursed +1 long swords (weapon in hands)").is_cursed = false ∧
    (mkItem "2 uncursed +1 long swords (weapon in hands)").enchantment = none ∧
    (mkItem "2 uncursed +1 long swords (weapon in hands)").is_wielded = true := by
  decide

/-- A Python dict value as stored by the parsers: a string or an int. -/
inductive PyVal where
  | str : String → PyVal
  | int : Int → PyVal
  deriving DecidableEq

/-- The named groups of the attribute regex of `Player._parse_attributes`
(`m.groupdict()`; every group is mandatory, so all values are strings). -/
structure AttrsG where
  st : String
  dx : String
  co : String
  in_ : String
  wi : String
  ch : String
  align : String
  deriving DecidableEq

/-- Match of the attribute regex at one position:
`St:([/\d]+)\s*Dx:(\d+)\s*Co:(\d+)\s*In:(\d+)\s*Wi:(\d+)\s*Ch:(\d+)\s*(\S+)`. -/
def attrsAt (l : List Char) : Option AttrsG :=
  litP "St:" l fun l =>
  plusP slashDigit l fun st l =>
  starP l fun l =>
  litP "Dx:" l fun l =>
  plusP Char.isDigit l fun dx l =>
  starP l fun l =>
  litP "Co:" l fun l =>
  plusP Char.isDigit l fun co l =>
  starP l fun l =>
  litP "In:" l fun l =>
  plusP Char.isDigit l fun i l =>
  starP l fun l =>
  litP "Wi:" l fun l =>
  plusP Char.isDigit l fun wi l =>
  starP l fun l =>
  litP "Ch:" l fun l =>
  plusP Char.isDigit l fun ch l =>
  starP l fun l =>
  plusP isNonSpace l fun align _ =>
  some ⟨String.mk st, String.mk dx, String.mk co, String.mk i,
        String.mk wi, String.mk ch, String.mk align⟩

/-- The stored `self.attributes` dict: `m.groupdict()` verbatim, so every
value is kept as a string. -/
structure Attrs where
  st : PyVal
  dx : PyVal
  co : PyVal
  in_ : PyVal
  wi : PyVal
  ch : PyVal
  align : PyVal
  deriving DecidableEq

/-- `self.attributes = m.groupdict()`: no coercion of any group. -/
def storeAttrs (g : AttrsG) : Attrs :=
  ⟨.str g.st, .str g.dx, .str g.co, .str g.in_, .str g.wi, .str g.ch, .str g.align⟩

/-- `Player._parse_attributes`: overwrite on a match, keep the previous
value on no match. -/
def parseAttributes (prev : Option Attrs) (row : String) : Option Attrs :=
  match searchAux attrsAt row.data with
  | some g => some (storeAttrs g)
  | none => prev

/-- The named groups of the status regex of `Player._parse_stats`
(`m.groupdict()`; optional condition groups may be `None`). -/
structure StatsG where
  dlvl : String
  money : String
  hp : String
  hp_max : String
  pw : String
  pw_max : String
  ac : String
  exp : String
  hunger : Option String
  stun : Option String
  conf : Option String
  blind : Option String
  burden : Option String
  hallu : Option String
  deriving DecidableEq

/-- Match of the status regex at one position:
`Dlvl:(\S+)\s*\$:(\d+)\s*HP:(\d+)\((\d+)\)\s*Pw:(\d+)\((\d+)\)\s*AC:(\d+)\s*`
`Exp:(\d+)\s*` followed by the optional condition groups, each with `\s*`. -/
def statsAt (l : List Char) : Option StatsG :=
  litP "Dlvl:" l fun l =>
  plusP isNonSpace l fun dlvl l =>
  starP l fun l =>
  litP "$:" l fun l =>
  plusP Char.isDigit l fun money l =>
  starP l fun l =>
  litP "HP:" l fun l =>
  plusP Char.isDigit l fun hp l =>
  litP "(" l fun l =>
  plusP Char.isDigit l fun hpm l =>
  litP ")" l fun l =>
  starP l fun l =>
  litP "Pw:" l fun l =>
  plusP Char.isDigit l fun pw l =>
  litP "(" l fun l =>
  plusP Char.isDigit l fun pwm l =>
  litP ")" l fun l =>
  starP l fun l =>
  litP "AC:" l fun l =>
  plusP Char.isDigit l fun ac l =>
  starP l fun l =>
  litP "Exp:" l fun l =>
  plusP Char.isDigit l fun ex l =>
  starP l fun l =>
  altP ["Satiated", "Hungry", "Weak", "Fainting"] l fun hunger l =>
  starP l fun l =>
  altP ["Stun"] l fun stun l =>
  starP l fun l =>
  altP ["Conf"] l fun conf l =>
  starP l fun l =>
  altP ["Blind"] l fun blind l =>
  starP l fun l =>
  altP ["Burdened", "Stressed", "Strained", "Overtaxed", "Overloaded"] l fun burden l =>
  starP l fun l =>
  altP ["Hallu"] l fun hallu l =>
  starP l fun _ =>
  some ⟨String.mk dlvl, String.mk money, String.mk hp, String.mk hpm,
        String.mk pw, String.mk pwm, String.mk ac, String.mk ex,
        hunger, stun, conf, blind, burden, hallu⟩

/-- The stored `self.stats` dict after the coercion loop. -/
structure Stats where
  dlvl : PyVal
  money : PyVal
  hp : PyVal
  hp_max : PyVal
  pw : PyVal
  pw_max : PyVal
  ac : PyVal
  exp : PyVal
  hunger : Option PyVal
  stun : Option PyVal
  conf : Option PyVal
  blind : Option PyVal
  burden : Option PyVal
  hallu : Option PyVal
  deriving DecidableEq

/-- The coercion applied to each dict value:
`if v and v.isdigit(): stats[k] = int(v)`. -/
def convVal (s : String) : PyVal :=
  if pyIsDigit s.data then .int (digitsToNat s.data) else .str s

/-- `self.stats = m.groupdict()` followed by the coercion loop
(`None` values are skipped by the `if v` test). -/
def convertStats (g : StatsG) : Stats :=
  ⟨convVal g.dlvl, convVal g.money, convVal g.hp, convVal g.hp_max,
   convVal g.pw, convVal g.pw_max, convVal g.ac, convVal g.exp,
   g.hunger.map convVal, g.stun.map convVal, g.conf.map convVal,
   g.blind.map convVal, g.burden.map convVal, g.hallu.map convVal⟩

/-- `Player._parse_stats`: overwrite on a match, keep the previous value on
no match. -/
def parseStats (prev : Option Stats) (row : String) : Option Stats :=
  match searchAux statsAt row.data with
  | some g => some (convertStats g)
  | none => prev

/-- Claim C5 (counterexample): on the status row
`"Dlvl:5 $:120 HP:10(20) Pw:3(5) AC:8 Exp:3 Hungry"` the stored `dlvl` is
the integer 5, not the string `"5"`: the coercion loop converts every
digit-only value, and `"5".isdigit()` holds. -/
theorem parse_stats_dlvl_counterexample :
    (parseStats none "Dlvl:5 $:120 HP:10(20) Pw:3(5) AC:8 Exp:3 Hungry").map Stats.dlvl =
      some (PyVal.int 5) ∧ PyVal.int 5 ≠ PyVal.str "5" := by
  constructor
  · decide
  · decide

/-- Claim C5 (amended): on the status row
`"Dlvl:5 $:120 HP:10(20) Pw:3(5) AC:8 Exp:3 Hungry"` the parse yields
`dlvl = 5` (an integer, since the label is digit-only), `money = 120`,
`hp = 10`, `hp_max = 20`, `pw = 3`, `pw_max = 5`, `ac = 8`, `exp = 3`,
`hunger = "Hungry"`, and all other optional condition flags absent. -/
theorem parse_stats_example_amended :
    parseStats none "Dlvl:5 $:120 HP:10(20) Pw:3(5) AC:8 Exp:3 Hungry" =
      some ⟨PyVal.int 5, PyVal.int 120, PyVal.int 10, PyVal.int 20,
            PyVal.int 3, PyVal.int 5, PyVal.int 8, PyVal.int 3,
            some (PyVal.str "Hungry"), none, none, none, none, none⟩ := by
  decide

/-- Claim C6 (counterexample): on the attribute row
`"St:18/02 Dx:12 Co:14 In:10 Wi:9 Ch:8 Lawful"` the stored `dx` is the
string `"12"`, not the integer 12: `_parse_attributes` stores
`m.groupdict()` without any coercion. -/
theorem parse_attributes_counterexample :
    (parseAttributes none "St:18/02 Dx:12 Co:14 In:10 Wi:9 Ch:8 Lawful").map Attrs.dx =
      some (PyVal.str "12") ∧ PyVal.str "12" ≠ PyVal.int 12 := by
  constructor
  · decide
  · decide

/-- Claim C6 (amended): on the attribute row
`"St:18/02 Dx:12 Co:14 In:10 Wi:9 Ch:8 Lawful"` the parse yields
`st = "18/02"` and the remaining five scores also as strings
(`dx = "12"`, `co = "14"`, `in = "10"`, `wi = "9"`, `ch = "8"`), plus
`align = "Lawful"`. -/
theorem parse_attributes_example_amended :
    parseAttributes none "St:18/02 Dx:12 Co:14 In:10 Wi:9 Ch:8 Lawful" =
      some ⟨PyVal.str "18/02", PyVal.str "12", PyVal.str "14", PyVal.str "10",
            PyVal.str "9", PyVal.str "8", PyVal.str "Lawful"⟩ := by
  decide

/-- Claim C8: whenever the attribute row (respectively the status row) does
not match the extraction regex, the previously stored attributes
(respectively stats) are left completely unchanged; both parsers are total,
so no error is raised. -/
theorem parse_sticky_on_no_match (prevA : Option Attrs) (prevS : Option Stats)
    (rowA rowS : String)
    (hA : searchAux attrsAt rowA.data = none)
    (hS : searchAux statsAt rowS.data = none) :
    parseAttributes prevA rowA = prevA ∧ parseStats prevS rowS = prevS := by
  unfold parseAttributes parseStats
  rw [hA, hS]
  exact ⟨rfl, rfl⟩

/-- Witness for C8 at the row `"hello"` (no match for either regex). -/
theorem parse_sticky_on_no_match_witness :
    parseAttributes (some ⟨.str "18", .str "12", .str "14", .str "10",
        .str "9", .str "8", .str "Lawful"⟩) "hello" =
      some ⟨.str "18", .str "12", .str "14", .str "10",
        .str "9", .str "8", .str "Lawful"⟩ ∧
    parseStats none "hello" = none :=
  parse_sticky_on_no_match _ _ "hello" "hello" (by decide) (by decide)

/-- The fixed inventory category labels (`InventoryItem.CATEGORIES`). -/
def CATEGORIES : List String :=
  ["Amulets", "Weapons", "Armor", "Comestibles", "Scrolls", "Spellbooks",
   "Potions", "Rings", "Wands", "Tools", "Gems"]

/-- A category's slot map: single letter to item, insertion-ordered. -/
abbrev Slots := List (Char × InventoryItem)

/-- The inventory dict: category label to slot map, insertion-ordered. -/
abbrev Inv := List (String × Slots)

/-- Python dict assignment on a slot map: replace in place or append. -/
def slotSet : Slots → Char → InventoryItem → Slots
  | [], k, v => [(k, v)]
  | (k0, v0) :: t, k, v =>
    if k0 = k then (k0, v) :: t else (k0, v0) :: slotSet t k v

/-- Python dict lookup on the inventory. -/
def invGet : Inv → String → Option Slots
  | [], _ => none
  | (k, v) :: t, c => if k = c then some v else invGet t c

/-- Python dict assignment on the inventory: replace in place or append. -/
def invSet : Inv → String → Slots → Inv
  | [], c, s => [(c, s)]
  | (k, v) :: t, c, s =>
    if k = c then (k, s) :: t else (k, v) :: invSet t c s

/-- `self.inventory.setdefault(category, dict())`. -/
def setdefaultEmpty (inv : Inv) (c : String) : Inv :=
  match invGet inv c with
  | some _ => inv
  | none => inv ++ [(c, [])]

/-- The lazy group of `(.*?)(?=\x1b\[)`: the shortest run of non-newline
characters after which `ESC [` follows.  Returns the captured group and the
rest of the input starting at the (unconsumed) lookahead. -/
def lazyToEsc : List Char → Option (List Char × List Char)
  | [] => none
  | c :: t =>
    if c == escChar && (match t with | c2 :: _ => c2 == '[' | [] => false) then
      some ([], c :: t)
    else if c == nlChar then none
    else
      match lazyToEsc t with
      | some (name, rest) => some (c :: name, rest)
      | none => none

/-- One candidate position of the record pattern ` (\w) - (.*?)(?=\x1b\[)`:
on success, the slot letter, the captured description, and the rest of the
input at the lookahead. -/
def matchRecordAt (l : List Char) : Option (Char × List Char × List Char) :=
  match l with
  | c0 :: c1 :: c2 :: c3 :: c4 :: rest =>
    if c0 == spaceChar && isWordChar c1 && c2 == spaceChar &&
        c3 == '-' && c4 == spaceChar then
      match lazyToEsc rest with
      | some (name, rest2) => some (c1, name, rest2)
      | none => none
    else none
  | _ => none

/-- `re.findall` of the record pattern: leftmost, non-overlapping matches,
resuming at the zero-width lookahead.  Fuelled by the input length (every
step consumes at least one character). -/
def scanRecordsAux : Nat → List Char → List (Char × List Char)
  | 0, _ => []
  | fuel + 1, l =>
    match matchRecordAt l with
    | some (ltr, name, rest) => (ltr, name) :: scanRecordsAux fuel rest
    | none =>
      match l with
      | [] => []
      | _ :: t => scanRecordsAux fuel t

/-- All ` (\w) - (.*?)(?=\x1b\[)` records of a region. -/
def scanRecords (l : List Char) : List (Char × List Char) :=
  scanRecordsAux l.length l

/-- One category of `Player._parse_inventory`: `setdefault` always runs;
the items are extracted only when the label occurs at a strictly positive
index (`if i > 0`), from the sub-region before the next `\x1b[7m` marker. -/
def stepCat (raw : List Char) (acc : Inv × Bool) (cat : String) : Inv × Bool :=
  let inv := setdefaultEmpty acc.1 cat
  match findSub raw cat.data with
  | none => (inv, acc.2)
  | some i =>
    if 0 < i then
      let region := takeBeforeSub (raw.drop i) "\x1b[7m".data
      let sl := (scanRecords region).foldl
        (fun m r => slotSet m r.1 ⟨pyStrip r.2⟩) ((invGet inv cat).getD [])
      (invSet inv cat sl, true)
    else (inv, acc.2)

/-- `Player._parse_inventory`: the Bool is `found_inventory`
(`self._need_inventory` is set to its negation by the caller). -/
def parseInventory (inv : Inv) (raw : List Char) : Inv × Bool :=
  CATEGORIES.foldl (stepCat raw) (inv, false)

/-- The slot map produced for one category found at index `i`, starting
from the category's previous slot map in `inv` (empty when absent). -/
def categorySlots (inv : Inv) (raw : List Char) (c : String) (i : Nat) : Slots :=
  (scanRecords (takeBeforeSub (raw.drop i) "\x1b[7m".data)).foldl
    (fun m r => slotSet m r.1 ⟨pyStrip r.2⟩) ((invGet inv c).getD [])

/-- Whether a category label occurs at a strictly positive index. -/
def posFound (raw : List Char) (cat : String) : Bool :=
  match findSub raw cat.data with
  | some i => decide (0 < i)
  | none => false

lemma invGet_invSet_self (inv : Inv) (c : String) (s : Slots) :
    invGet (invSet inv c s) c = some s := by
  induction inv with
  | nil => simp [invSet, invGet]
  | cons kv t ih =>
    obtain ⟨k, v⟩ := kv
    by_cases hk : k = c
    · simp [invSet, invGet, hk]
    · simp [invSet, invGet, hk, ih]

lemma invGet_invSet_ne (inv : Inv) (c c0 : String) (s : Slots) (h : c ≠ c0) :
    invGet (invSet inv c0 s) c = invGet inv c := by
  induction inv with
  | nil => simp [invSet, invGet, Ne.symm h]
  | cons kv t ih =>
    obtain ⟨k, v⟩ := kv
    by_cases hk : k = c0
    · subst hk
      simp [invSet, invGet, Ne.symm h]
    · by_cases hc : k = c
      · subst hc
        simp [invSet, invGet, hk]
      · simp [invSet, invGet, hk, hc, ih]

lemma invGet_append_single (inv : Inv) (c : String) (s : Slots) :
    invGet (inv ++ [(c, s)]) c = some ((invGet inv c).getD s) := by
  induction inv with
  | nil => simp [invGet]
  | cons kv t ih =>
    obtain ⟨k, v⟩ := kv
    by_cases hk : k = c
    · simp [invGet, hk]
    · simp [invGet, hk, ih]

lemma invGet_append_single_ne (inv : Inv) (c c0 : String) (s : Slots) (h : c ≠ c0) :
    invGet (inv ++ [(c0, s)]) c = invGet inv c := by
  induction inv with
  | nil => simp [invGet, Ne.symm h]
  | cons kv t ih =>
    obtain ⟨k, v⟩ := kv
    by_cases hk : k = c
    · simp [invGet, hk]
    · simp [invGet, hk, ih]

lemma invGet_setdefault_self (inv : Inv) (c : String) :
    invGet (setdefaultEmpty inv c) c = some ((invGet inv c).getD []) := by
  unfold setdefaultEmpty
  cases hg : invGet inv c with
  | some s => simp [hg]
  | none => simp [hg, invGet_append_single]

lemma invGet_setdefault_ne (inv : Inv) (c c0 : String) (h : c ≠ c0) :
    invGet (setdefaultEmpty inv c0) c = invGet inv c := by
  unfold setdefaultEmpty
  cases hg : invGet inv c0 with
  | some s => rfl
  | none => exact invGet_append_single_ne inv c c0 [] h

lemma stepCat_get_ne (raw : List Char) (acc : Inv × Bool) (cat c : String)
    (h : c ≠ cat) : invGet (stepCat raw acc cat).1 c = invGet acc.1 c := by
  unfold stepCat
  cases hf : findSub raw cat.data with
  | none => simp [invGet_setdefault_ne _ _ _ h]
  | some i =>
    by_cases hi : 0 < i
    · simp [hi, invGet_invSet_ne _ _ _ _ h, invGet_setdefault_ne _ _ _ h]
    · simp [hi, invGet_setdefault_ne _ _ _ h]

lemma categorySlots_congr (inv inv0 : Inv) (raw : List Char) (c : String) (i : Nat)
    (h : invGet inv c = invGet inv0 c) :
    categorySlots inv raw c i = categorySlots inv0 raw c i := by
  unfold categorySlots
  rw [h]

lemma stepCat_get_self (raw : List Char) (acc : Inv × Bool) (cat : String) (i : Nat)
    (hf : findSub raw cat.data = some i) (hi : 0 < i) :
    invGet (stepCat raw acc cat).1 cat = some (categorySlots acc.1 raw cat i) := by
  unfold stepCat
  rw [hf]
  simp only [hi, if_true]
  rw [invGet_invSet_self]
  unfold categorySlots
  rw [invGet_setdefault_self]
  rfl

lemma stepCat_snd (raw : List Char) (acc : Inv × Bool) (cat : String) :
    (stepCat raw acc cat).2 = (acc.2 || posFound raw cat) := by
  unfold stepCat posFound
  cases hf : findSub raw cat.data with
  | none => simp
  | some i =>
    by_cases hi : 0 < i
    · simp [hi]
    · simp [hi]

lemma foldl_stepCat_snd (raw : List Char) :
    ∀ (L : List String) (acc : Inv × Bool),
      (L.foldl (stepCat raw) acc).2 = (acc.2 || L.any (posFound raw))
  | [], acc => by simp
  | cat :: L, acc => by
    rw [List.foldl_cons, foldl_stepCat_snd raw L, stepCat_snd]
    simp [Bool.or_assoc]

lemma foldl_stepCat_get_notmem (raw : List Char) :
    ∀ (L : List String) (acc : Inv × Bool) (c : String), c ∉ L →
      invGet ((L.foldl (stepCat raw) acc)).1 c = invGet acc.1 c
  | [], acc, c, _ => rfl
  | cat :: L, acc, c, h => by
    rw [List.foldl_cons,
        foldl_stepCat_get_notmem raw L _ c (fun hm => h (List.mem_cons_of_mem _ hm)),
        stepCat_get_ne raw acc cat c (fun he => h (he ▸ List.mem_cons_self _ _))]

lemma foldl_stepCat_get_mem (raw : List Char) :
    ∀ (L : List String) (acc : Inv × Bool) (c : String) (i : Nat),
      c ∈ L → L.Nodup → findSub raw c.data = some i → 0 < i →
      invGet ((L.foldl (stepCat raw) acc)).1 c = some (categorySlots acc.1 raw c i)
  | [], _, c, _, hm, _, _, _ => absurd hm (List.not_mem_nil c)
  | cat :: L, acc, c, i, hm, hnd, hf, hi => by
    rcases List.mem_cons.mp hm with hc | hc
    · subst hc
      rw [List.foldl_cons,
          foldl_stepCat_get_notmem raw L _ c (List.Nodup.not_mem hnd),
          stepCat_get_self raw acc c i hf hi]
    · have hne : c ≠ cat := by
        intro he
        exact (List.Nodup.not_mem hnd) (he ▸ hc)
      rw [List.foldl_cons,
          foldl_stepCat_get_mem raw L _ c i hc (List.Nodup.of_cons hnd) hf hi,
          categorySlots_congr _ _ raw c i (stepCat_get_ne raw acc cat c hne)]

/-- Claim C9 (counterexample): on a raw frame that begins with the label
`"Weapons"` (index 0), `_parse_inventory` does not populate the Weapons slot
map (the guard is `i > 0`, not `i >= 0`) and reports that no category
section was found, so the re-request flag is set. -/
theorem inventory_label_at_start_counterexample :
    findSub "Weapons  a - a dagger\x1b[0m".data "Weapons".data = some 0 ∧
    (parseInventory [] "Weapons  a - a dagger\x1b[0m".data).2 = false ∧
    invGet (parseInventory [] "Weapons  a - a dagger\x1b[0m".data).1 "Weapons" =
      some [] := by
  refine ⟨by decide, by decide, by decide⟩

/-- Claim C9 (amended): `_parse_inventory` populates a category's slot map
whenever that category's label occurs at a strictly positive index in the
raw frame (an occurrence at index 0 is treated as not found), and reports
"no category section found" (so the needs-re-request flag is set) exactly
when no label occurs at a positive index. -/
theorem inventory_positive_index_amended (inv : Inv) (raw : List Char) :
    ((parseInventory inv raw).2 = true ↔
      ∃ c, c ∈ CATEGORIES ∧ posFound raw c = true) ∧
    (∀ (c : String) (i : Nat), c ∈ CATEGORIES → findSub raw c.data = some i →
      0 < i →
      invGet (parseInventory inv raw).1 c = some (categorySlots inv raw c i)) := by
  constructor
  · unfold parseInventory
    rw [foldl_stepCat_snd]
    simp [List.any_eq_true]
  · intro c i hc hf hi
    exact foldl_stepCat_get_mem raw CATEGORIES (inv, false) c i hc (by decide) hf hi

/-- Witness for the amended C9: the same listing shifted by one character,
so the label sits at index 1 and the Weapons map is populated. -/
theorem inventory_positive_index_witness :
    invGet (parseInventory [] " Weapons  a - a dagger\x1b[0m".data).1 "Weapons" =
      some (categorySlots [] " Weapons  a - a dagger\x1b[0m".data "Weapons" 1) :=
  (inventory_positive_index_amended [] " Weapons  a - a dagger\x1b[0m".data).2
    "Weapons" 1 (by decide) (by decide) (by decide)

namespace CMD

/-- `CMD.MORE` (ENTER). -/
def MORE : String := "\x0d"

/-- `CMD.INVENTORY`. -/
def INVENTORY : String := "i"

end CMD

/-- The pluggable Strategy interface: the commands returned by
`choose_answer` and `choose_action`. -/
structure Strategy where
  answer : String
  action : String

/-- The controller state of `Player` used by `_observe`/`_act`:
`self.inventory`, `self._need_inventory`, `self._has_more`,
`self._command`, and `self.messages`. -/
structure MachineState where
  inventory : Inv
  needInventory : Bool
  hasMore : Bool
  command : Option String
  messages : List String
  deriving DecidableEq

/-- `msg = self.messages and self.messages[-1] or ''`. -/
def latestMsg (msgs : List String) : String := (msgs.getLast?).getD ""

/-- The five branches of the `_act` decision chain. -/
inductive Decision where
  | more
  | quit
  | answer
  | inventory
  | action
  deriving DecidableEq

/-- The `_act` decision chain, in source order. -/
def decideCmd (hasMore : Bool) (msg : String) (needInv : Bool) : Decision :=
  if hasMore then .more
  else if containsSub msg.data "You die".data then .quit
  else if containsSub msg.data "? ".data && !containsSub msg.data " written ".data then .answer
  else if needInv then .inventory
  else .action

/-- The command each decision branch assigns to `self._command`. -/
def dispatch (strat : Strategy) : Decision → String
  | .more => CMD.MORE
  | .quit => "q"
  | .answer => strat.answer
  | .inventory => CMD.INVENTORY
  | .action => strat.action

/-- `Player._act`: the returned command, also remembered in
`self._command`. -/
def act (st : MachineState) (strat : Strategy) : String × MachineState :=
  let c := dispatch strat (decideCmd st.hasMore (latestMsg st.messages) st.needInventory)
  (c, { st with command := some c })

/-- `Player._observe` on the controller state.  The screen-grid update of
`_parse_glyphs` (glyphs, cursor, message/attribute/status rows) is the
external terminal emulator's effect and touches none of these fields, so it
is not modelled here; `messages` is left unchanged and quantified over in
the theorems. -/
def observe (st : MachineState) (raw : String) : MachineState :=
  let st1 :=
    if st.command = some CMD.INVENTORY then
      let st0 := if !st.hasMore then { st with inventory := [] } else st
      let pr := parseInventory st0.inventory raw.data
      { st0 with inventory := pr.1, needInventory := !pr.2 }
    else st
  { st1 with
      command := none,
      hasMore := containsSub raw.data "--More--".data ||
        containsSub raw.data "(end)".data }

/-- Claim C2 (code evaluation): from a state in which the controller has
just decided to send the inventory command (which only happens when no
continuation marker was pending, so `_has_more` is false), observing a next
frame that does contain `"--More--"` still clears the inventory dict: the
clearing test reads the stale `_has_more` of the previous frame, which is
necessarily false here, not the marker of the new frame.  The pre-existing
Weapons item is lost. -/
theorem observe_clears_inventory_on_more_frame :
    (act ⟨[("Weapons", [('a', ⟨"old sword".data⟩)])], true, false, none,
        ["You see here a sword."]⟩ ⟨"n", "j"⟩).1 = CMD.INVENTORY ∧
    containsSub "page two --More--".data "--More--".data = true ∧
    invGet (observe
        (act ⟨[("Weapons", [('a', ⟨"old sword".data⟩)])], true, false, none,
          ["You see here a sword."]⟩ ⟨"n", "j"⟩).2
        "page two --More--").inventory "Weapons" = some [] := by
  refine ⟨by decide, by decide, by decide⟩

/-- Claim C3: the `_act` decision is evaluated in strict priority order:
a pending continuation marker always yields the continuation command; else
a death message yields the quit command; else an answer-pattern message
delegates to `choose_answer` regardless of the inventory flag; else a set
inventory flag yields the inventory command; else `choose_action`.  In
particular, on `"Really attack the guard? [yn]"` with inventory never
captured, the answer branch wins. -/
theorem act_priority_order :
    (∀ (st : MachineState) (strat : Strategy), st.hasMore = true →
      (act st strat).1 = CMD.MORE) ∧
    (∀ (st : MachineState) (strat : Strategy), st.hasMore = false →
      containsSub (latestMsg st.messages).data "You die".data = true →
      (act st strat).1 = "q") ∧
    (∀ (st : MachineState) (strat : Strategy), st.hasMore = false →
      containsSub (latestMsg st.messages).data "You die".data = false →
      containsSub (latestMsg st.messages).data "? ".data = true →
      containsSub (latestMsg st.messages).data " written ".data = false →
      (act st strat).1 = strat.answer) ∧
    (∀ (st : MachineState) (strat : Strategy), st.hasMore = false →
      containsSub (latestMsg st.messages).data "You die".data = false →
      (containsSub (latestMsg st.messages).data "? ".data &&
        !containsSub (latestMsg st.messages).data " written ".data) = false →
      st.needInventory = true →
      (act st strat).1 = CMD.INVENTORY) ∧
    (∀ (st : MachineState) (strat : Strategy), st.hasMore = false →
      containsSub (latestMsg st.messages).data "You die".data = false →
      (containsSub (latestMsg st.messages).data "? ".data &&
        !containsSub (latestMsg st.messages).data " written ".data) = false →
      st.needInventory = false →
      (act st strat).1 = strat.action) ∧
    (∀ (st : MachineState) (strat : Strategy), st.hasMore = false →
      latestMsg st.messages = "Really attack the guard? [yn]" →
      st.needInventory = true →
      (act st strat).1 = strat.answer) := by
  refine ⟨?_, ?_, ?_, ?_, ?_, ?_⟩
  · intro st strat h1
    simp [act, decideCmd, dispatch, h1]
  · intro st strat h1 h2
    simp [act, decideCmd, dispatch, h1, h2]
  · intro st strat h1 h2 h3 h4
    simp [act, decideCmd, dispatch, h1, h2, h3, h4]
  · intro st strat h1 h2 h3 h4
    simp [act, decideCmd, dispatch, h1, h2, h3, h4]
  · intro st strat h1 h2 h3 h4
    simp [act, decideCmd, dispatch, h1, h2, h3, h4]
  · intro st strat h1 h2 h3
    have d1 : containsSub "Really attack the guard? [yn]".data "You die".data = false := by
      decide
    have d2 : containsSub "Really attack the guard? [yn]".data "? ".data = true := by
      decide
    have d3 : containsSub "Really attack the guard? [yn]".data " written ".data = false := by
      decide
    simp [act, decideCmd, dispatch, h1, h2, h3, d1, d2, d3]

/-- Witness for C3: the concrete frame of the claim, with inventory never
captured; the controller picks the strategy's answer `"n"`. -/
theorem act_priority_order_witness :
    (act ⟨[], true, false, none, ["Really attack the guard? [yn]"]⟩
      ⟨"n", "j"⟩).1 = "n" :=
  act_priority_order.2.2.2.2.2
    ⟨[], true, false, none, ["Really attack the guard? [yn]"]⟩ ⟨"n", "j"⟩
    rfl rfl rfl

/-- The predicate of claim C4: the message ends with `"? "`. -/
def strEndsWith (s suffix : String) : Bool :=
  suffix.data.reverse.isPrefixOf s.data.reverse

/-- Claim C4 (counterexample): with no continuation pending and no death
message, the message `"Hello? there"` delegates to `choose_answer` although
it does not end with `"? "`: the source tests `'? ' in msg`, a containment,
not a suffix test. -/
theorem answer_condition_counterexample :
    decideCmd false "Hello? there" true = Decision.answer ∧
    strEndsWith "Hello? there" "? " = false ∧
    containsSub "Hello? there".data "You die".data = false := by
  refine ⟨by decide, by decide, by decide⟩

/-- Claim C4 (amended): given that no continuation marker is pending and
the latest message does not indicate death, the controller delegates to
`choose_answer` if and only if the message contains `"? "` and does not
contain `" written "` (both surrounded by the source's exact spacing). -/
theorem answer_condition_amended (msg : String) (ni : Bool)
    (hdie : containsSub msg.data "You die".data = false) :
    decideCmd false msg ni = Decision.answer ↔
      (containsSub msg.data "? ".data = true ∧
        containsSub msg.data " written ".data = false) := by
  cases hq : containsSub msg.data "? ".data <;>
    cases hw : containsSub msg.data " written ".data <;>
    cases ni <;>
    simp_all [decideCmd]

/-- Witness for the amended C4 on a genuine prompt. -/
theorem answer_condition_amended_witness :
    decideCmd false "Do you want it? " true = Decision.answer :=
  (answer_condition_amended "Do you want it? " true (by decide)).mpr
    ⟨by decide, by decide⟩

/-- The screen state consumed by `neighborhood`: glyph plane shape, the
glyph codes, and the cursor position. -/
structure Screen where
  rows : Nat
  cols : Nat
  glyphs : Nat → Nat → Nat
  cury : Nat
  curx : Nat

/-- Normalise a Python/numpy slice bound against an axis of length `n`:
negative bounds count from the end (clamped at 0), bounds beyond the end
are clamped to `n`. -/
def sliceIdx (n : Nat) (i : Int) : Nat :=
  if i < 0 then ((n : Int) + i).toNat else min i.toNat n

/-- The number of elements selected by the slice `[lo:hi]` on an axis of
length `n`. -/
def sliceLen (n : Nat) (lo hi : Int) : Nat := sliceIdx n hi - sliceIdx n lo

/-- `Player.neighborhood`: the window bounds and output offsets exactly as
computed by the source, followed by the numpy assignment
`hood[ulo:uhi, vlo:vhi] = glyphs[ylo:yhi, xlo:xhi]`.  The assignment
requires the source block to broadcast into the destination slice (each
axis equal, or a source axis of extent 1); a shape mismatch raises, which
is modelled as `none`. -/
def neighborhood (s : Screen) (radius : Nat) : Option (List (List Nat)) :=
  let rows : Int := s.rows
  let cols : Int := s.cols
  let y : Int := s.cury
  let x : Int := s.curx
  let r : Int := radius
  let size : Nat := 2 * radius + 1
  let ylo : Int := if y < r then 0 else y - r
  let ulo : Int := if y < r then r - y else 0
  let yhi : Int := if y > rows - 3 - r then rows - 3 else y + r + 1
  let uhi : Int := if y > rows - 3 - r then r - (rows - y - 3) else (size : Int)
  let xlo : Int := if x < r then 0 else x - r
  let vlo : Int := if x < r then r - x else 0
  let xhi : Int := if x > cols - r then cols else x + r + 1
  let vhi : Int := if x > cols - r then r - (cols - x) else (size : Int)
  let du : Nat := sliceLen size ulo uhi
  let dv : Nat := sliceLen size vlo vhi
  let sy : Nat := sliceLen s.rows ylo yhi
  let sx : Nat := sliceLen s.cols xlo xhi
  if (sy = du || sy = 1) && (sx = dv || sx = 1) then
    some ((List.range size).map fun u =>
      (List.range size).map fun v =>
        if sliceIdx size ulo ≤ u ∧ u < sliceIdx size uhi ∧
            sliceIdx size vlo ≤ v ∧ v < sliceIdx size vhi then
          s.glyphs
            (sliceIdx s.rows ylo + (if sy = 1 then 0 else u - sliceIdx size ulo))
            (sliceIdx s.cols xlo + (if sx = 1 then 0 else v - sliceIdx size vlo))
        else 0)
  else none

/-- Claim C1 (code evaluation): on a 24x80 screen with radius 3 and the
cursor at row 20 (within `radius` of the bottom status clamp), no grid is
returned at all: the source block `glyphs[17:21]` has 4 rows but the
destination slice `hood[0:2]` has 2, because the clamped output bound is
computed as `radius - (rows - y - 3)` where the matching bound would be
`radius + (rows - y - 3)`, so the numpy assignment raises. -/
theorem neighborhood_bottom_edge_broadcast_error :
    neighborhood ⟨24, 80, fun y x => 100 * y + x + 1, 20, 40⟩ 3 = none := by
  decide

end Nethack
